import Mathlib

/-!
Verification development for the functions-emulator invocation engine
(src/emulator/functionsEmulator.ts).

The definitions below are shallow embeddings of the corresponding source
functions.  Types that the source imports from sibling modules that are not
part of this repository snapshot (EmulatedTriggerDefinition, EmulatorLog,
the Constants service names) are modelled from the spec, as noted on each
one.  All definitions are executable so that concrete witnesses evaluate by
decide or rfl.
-/

/-- Modelled from the spec: a structured log event with a severity level and
free-form payload (the source type EmulatorLog lives in ./types, outside
this snapshot; only the level is inspected by the code under study). -/
structure EmulatorLog where
  level : String
  type : String
  text : String
deriving DecidableEq

/-- One observable effect of the per-stream log decoder onData:
emitting a parsed log record on the event emitter, emitting the synthetic
EmulatorLog "SYSTEM" "runtime-status" "killed" record, or invoking
runtime.kill() on the child process. -/
inductive Effect where
  | parsedLog (log : EmulatorLog)
  | syntheticKilled
  | kill
deriving DecidableEq

/-- Is this effect the kill() invocation? -/
def isKill : Effect → Bool
  | Effect.kill => true
  | _ => false

/-- Is this effect the synthetic killed status event? -/
def isSyntheticKilled : Effect → Bool
  | Effect.syntheticKilled => true
  | _ => false

/-- JavaScript value.split("\n") on a character list: the segments between
newline characters, in order, including empty segments; a string with k
newlines yields k+1 segments. -/
def jsSplitNewline : List Char → List (List Char)
  | [] => [[]]
  | c :: rest =>
    if c = '\n' then [] :: jsSplitNewline rest
    else
      match jsSplitNewline rest with
      | [] => [[c]]
      | l :: ls => (c :: l) :: ls

/-- The same split presented as (completed segments, trailing segment):
the first component is jsSplitNewline's dropLast and the second its last
element (proved below in jsSplitNewline_eq).  This form makes the
chunk-composition lemma structural. -/
def splitNLr : List Char → List (List Char) × List Char
  | [] => ([], [])
  | c :: rest =>
    let p := splitNLr rest
    if c = '\n' then ([] :: p.1, p.2)
    else
      match p.1 with
      | [] => ([], c :: p.2)
      | l :: ls => ((c :: l) :: ls, p.2)

theorem jsSplitNewline_eq (s : List Char) :
    jsSplitNewline s = (splitNLr s).1 ++ [(splitNLr s).2] := by
  induction s with
  | nil => rfl
  | cons c rest ih =>
    by_cases hc : c = '\n'
    · simp [jsSplitNewline, splitNLr, hc, ih]
    · simp only [jsSplitNewline, splitNLr, if_neg hc]
      cases h1 : (splitNLr rest).1 with
      | nil => rw [ih, h1]; rfl
      | cons l ls => rw [ih, h1]; rfl

theorem splitNLr_append (a b : List Char) :
    splitNLr (a ++ b) =
      ((splitNLr a).1 ++ (splitNLr ((splitNLr a).2 ++ b)).1,
       (splitNLr ((splitNLr a).2 ++ b)).2) := by
  induction a with
  | nil => simp [splitNLr]
  | cons c a ih =>
    by_cases hc : c = '\n'
    · simp [splitNLr, hc, ih]
    · simp only [List.cons_append, splitNLr, if_neg hc, List.append_eq]
      cases h1 : (splitNLr a).1 with
      | nil =>
        rw [ih, h1]
        simp only [List.nil_append]
        cases h2 : (splitNLr ((splitNLr a).2 ++ b)).1 with
        | nil => simp [splitNLr, if_neg hc, h2]
        | cons l ls => simp [splitNLr, if_neg hc, h2]
      | cons l ls =>
        rw [ih, h1]
        simp

/-- A chunk without a newline splits into no completed segment and itself
as the trailing segment. -/
theorem splitNLr_no_newline (s : List Char) (h : '\n' ∉ s) :
    splitNLr s = ([], s) := by
  induction s with
  | nil => rfl
  | cons c rest ih =>
    have hc : ¬(c = '\n') := fun e => h (e ▸ List.mem_cons_self c rest)
    have hr : '\n' ∉ rest := fun m => h (List.mem_cons_of_mem c m)
    simp [splitNLr, hc, ih hr]

/-- The per-line body of the forEach in onData: emit the parsed record; when
its level is FATAL, additionally emit the synthetic killed status event and
invoke runtime.kill().  The parse function f stands for EmulatorLog.fromJSON
(defined outside this snapshot), taken as a parameter. -/
def processLine (f : List Char → EmulatorLog) (line : List Char) : List Effect :=
  let log := f line
  if log.level = "FATAL" then
    [Effect.parsedLog log, Effect.syntheticKilled, Effect.kill]
  else
    [Effect.parsedLog log]

/-- The decoder state after one onData call: the retained partial line and
the effects performed, in order. -/
structure OnDataResult where
  newBuffer : List Char
  effects : List Effect
deriving DecidableEq

/-- FunctionsEmulator.onData: append the chunk to the per-stream buffer,
split on newline, process every line but the last (the source guards with
lines.length > 1, which is equivalent since dropLast of a singleton is
empty), and retain the last segment as the new buffer. -/
def onData (f : List Char → EmulatorLog) (buffer chunk : List Char) :
    OnDataResult :=
  let value := buffer ++ chunk
  let lines := jsSplitNewline value
  { newBuffer := lines.getLastD [],
    effects := (lines.dropLast).flatMap (processLine f) }

theorem getLastD_append_singleton {α : Type} (xs : List α) (x d : α) :
    (xs ++ [x]).getLastD d = x := by
  induction xs generalizing d with
  | nil => rfl
  | cons y ys ih => simp only [List.cons_append, List.getLastD_cons, ih]

theorem onData_eq (f : List Char → EmulatorLog) (buffer chunk : List Char) :
    onData f buffer chunk =
      { newBuffer := (splitNLr (buffer ++ chunk)).2,
        effects := ((splitNLr (buffer ++ chunk)).1).flatMap (processLine f) } := by
  simp only [onData, jsSplitNewline_eq, List.dropLast_concat,
    getLastD_append_singleton]

theorem onData_effects (f : List Char → EmulatorLog) (b c : List Char) :
    (onData f b c).effects = ((splitNLr (b ++ c)).1).flatMap (processLine f) := by
  rw [onData_eq]

theorem onData_newBuffer (f : List Char → EmulatorLog) (b c : List Char) :
    (onData f b c).newBuffer = (splitNLr (b ++ c)).2 := by
  rw [onData_eq]

/-- C2: feeding a stream in two chunks at any boundary yields the same
effect sequence (in particular the same parsed log records, in the same
order) and the same retained buffer as feeding it unsplit; and a chunk
extending a partial line with no newline produces no parse at all, only a
longer buffer. -/
theorem onData_chunk_boundary (f : List Char → EmulatorLog)
    (buffer c1 c2 : List Char) :
    ((onData f buffer (c1 ++ c2)).effects
        = (onData f buffer c1).effects
          ++ (onData f (onData f buffer c1).newBuffer c2).effects)
  ∧ ((onData f buffer (c1 ++ c2)).newBuffer
        = (onData f (onData f buffer c1).newBuffer c2).newBuffer)
  ∧ (∀ b chunk : List Char, '\n' ∉ b → '\n' ∉ chunk →
      (onData f b chunk).effects = []
        ∧ (onData f b chunk).newBuffer = b ++ chunk) := by
  refine ⟨?_, ?_, ?_⟩
  · simp only [onData_effects, onData_newBuffer]
    rw [← List.append_assoc, splitNLr_append (buffer ++ c1) c2]
    simp [List.flatMap_append]
  · simp only [onData_newBuffer]
    rw [← List.append_assoc, splitNLr_append (buffer ++ c1) c2]
  · intro b chunk hb hchunk
    have hn : '\n' ∉ b ++ chunk := by
      intro m
      rcases List.mem_append.mp m with m | m
      · exact hb m
      · exact hchunk m
    refine ⟨?_, ?_⟩
    · rw [onData_effects, splitNLr_no_newline _ hn]
      rfl
    · rw [onData_newBuffer, splitNLr_no_newline _ hn]

/-- A concrete parse function used by the concrete witnesses: the one-line
payload "F" parses to a FATAL record, everything else to INFO. -/
def exampleFromJSON (line : List Char) : EmulatorLog :=
  if line = "F".data then
    { level := "FATAL", type := "runtime-error", text := "boom" }
  else
    { level := "INFO", type := "log", text := String.mk line }

theorem onData_chunk_boundary_witness :
    ((onData exampleFromJSON [] ("ab\nc".data ++ "d\ne".data)).effects
        = (onData exampleFromJSON [] "ab\nc".data).effects
          ++ (onData exampleFromJSON
                ((onData exampleFromJSON [] "ab\nc".data).newBuffer)
                "d\ne".data).effects)
  ∧ ((onData exampleFromJSON "xy".data "zw".data).effects = []
      ∧ (onData exampleFromJSON "xy".data "zw".data).newBuffer
          = "xy".data ++ "zw".data) :=
  ⟨(onData_chunk_boundary exampleFromJSON [] "ab\nc".data "d\ne".data).1,
   (onData_chunk_boundary exampleFromJSON [] [] []).2.2 "xy".data "zw".data
     (by decide) (by decide)⟩

theorem processLine_countP_kill (f : List Char → EmulatorLog)
    (line : List Char) :
    (processLine f line).countP isKill
      = (if (f line).level = "FATAL" then 1 else 0) := by
  by_cases h : (f line).level = "FATAL" <;>
    simp [processLine, h, isKill, List.countP_cons]

theorem processLine_countP_killed (f : List Char → EmulatorLog)
    (line : List Char) :
    (processLine f line).countP isSyntheticKilled
      = (if (f line).level = "FATAL" then 1 else 0) := by
  by_cases h : (f line).level = "FATAL" <;>
    simp [processLine, h, isSyntheticKilled, List.countP_cons]

theorem flatMap_processLine_countP (f : List Char → EmulatorLog)
    (p : Effect → Bool)
    (hp : ∀ line, (processLine f line).countP p
            = (if (f line).level = "FATAL" then 1 else 0))
    (ls : List (List Char)) :
    (ls.flatMap (processLine f)).countP p
      = ls.countP (fun line => decide ((f line).level = "FATAL")) := by
  induction ls with
  | nil => rfl
  | cons l ls ih =>
    simp only [List.flatMap_cons, List.countP_append, ih, List.countP_cons, hp]
    by_cases h : (f l).level = "FATAL" <;> simp [h, Nat.add_comm]

/-- C3 (counterexample to the claim as stated): a single stream containing
two FATAL lines makes onData emit the synthetic killed event twice and call
runtime.kill() twice, not exactly once per stream. -/
theorem onData_double_fatal_counterexample :
    ((onData exampleFromJSON [] "F\nF\n".data).effects.countP isKill = 2
      ∧ (onData exampleFromJSON [] "F\nF\n".data).effects.countP
          isSyntheticKilled = 2)
  ∧ ¬((onData exampleFromJSON [] "F\nF\n".data).effects.countP isKill = 1) := by
  decide

/-- C3 (amended): onData kills the process and emits the synthetic
runtime-status killed event exactly once per complete line whose parsed
severity is FATAL, so a stream with exactly one FATAL record produces
exactly one of each, but a stream with k FATAL records produces k. -/
theorem onData_fatal_per_record (f : List Char → EmulatorLog)
    (buffer chunk : List Char) :
    (onData f buffer chunk).effects.countP isKill
        = ((jsSplitNewline (buffer ++ chunk)).dropLast).countP
            (fun line => decide ((f line).level = "FATAL"))
  ∧ (onData f buffer chunk).effects.countP isSyntheticKilled
        = ((jsSplitNewline (buffer ++ chunk)).dropLast).countP
            (fun line => decide ((f line).level = "FATAL")) := by
  constructor
  · exact flatMap_processLine_countP f isKill (processLine_countP_kill f) _
  · exact flatMap_processLine_countP f isSyntheticKilled
      (processLine_countP_killed f) _

theorem onData_fatal_per_record_witness :
    (onData exampleFromJSON [] "F\nok\n".data).effects.countP isKill
      = ((jsSplitNewline ([] ++ "F\nok\n".data)).dropLast).countP
          (fun line => decide ((exampleFromJSON line).level = "FATAL")) :=
  (onData_fatal_per_record exampleFromJSON [] "F\nok\n".data).1

/-- Modelled from the spec: the event-source metadata of a trigger
definition (service, resource path, event type).  The source type lives in
functionsEmulatorShared, outside this snapshot. -/
structure EventTrigger where
  resource : String
  eventType : String
  service : String
deriving DecidableEq

/-- Modelled from the spec: an immutable description of one user function
(name, entry point, HTTPS or event trigger kind, schedule flag).  The
source type EmulatedTriggerDefinition lives in functionsEmulatorShared,
outside this snapshot; only the fields read by the code under study are
modelled. -/
structure EmulatedTriggerDefinition where
  name : String
  entryPoint : String
  httpsTrigger : Bool
  eventTrigger : Option EventTrigger
  schedule : Bool
deriving DecidableEq

/-- EmulatedTriggerRecord from the source: a definition plus the enabled
flag.  The source field named def is a Lean keyword, so it is called defn
here. -/
structure EmulatedTriggerRecord where
  defn : EmulatedTriggerDefinition
  enabled : Bool
deriving DecidableEq

/-- The this.triggers JavaScript object, trigger name to record.  Lookup
finds the most recent assignment for a key, exactly like property access on
the object. -/
abbrev TriggerMap : Type := List (String × EmulatedTriggerRecord)

/-- Property read m[k] on a JavaScript-object-like association list:
the most recently assigned value for k, or none. -/
def mapGet {α : Type} (m : List (String × α)) (k : String) : Option α :=
  match m with
  | [] => none
  | (k2, v) :: rest => if k2 = k then some v else mapGet rest k

/-- FunctionsEmulator.addTriggerRecord: the assignment
this.triggers[def.name] = \x7b def, enabled: true \x7d.  It
unconditionally (re)binds the name. -/
def addTriggerRecord (m : TriggerMap) (d : EmulatedTriggerDefinition) :
    TriggerMap :=
  (d.name, { defn := d, enabled := true }) :: m

/-- FunctionsEmulator.getTriggerDefinitionByName: return the record's
definition, or throw the FirebaseError "No trigger with name ..." when the
name is absent (the thrown error is modelled as the Except error case). -/
def getTriggerDefinitionByName (triggers : TriggerMap)
    (triggerName : String) : Except String EmulatedTriggerDefinition :=
  match mapGet triggers triggerName with
  | none => Except.error ("No trigger with name " ++ triggerName)
  | some record => Except.ok record.defn

/-- What the backgroundHandler in createHubServer does with one request
before any asynchronous work: either answer 204 immediately, or submit one
task for the trigger to the work queue. -/
structure BackgroundHandlerResult where
  immediateStatus : Option Nat
  submittedTasks : List String
deriving DecidableEq

/-- backgroundHandler: when a registry record exists for the trigger name
and it is not enabled, respond 204 No Content and submit nothing;
otherwise submit one work-queue task for the trigger (the request's fate is
then decided inside the task). -/
def backgroundHandler (triggers : TriggerMap) (triggerId : String) :
    BackgroundHandlerResult :=
  match mapGet triggers triggerId with
  | some record =>
    if !record.enabled then
      { immediateStatus := some 204, submittedTasks := [] }
    else
      { immediateStatus := none, submittedTasks := [triggerId] }
  | none => { immediateStatus := none, submittedTasks := [triggerId] }

/-- C1: a background request for a trigger whose registry record is
disabled is answered 204 No Content immediately, and no task is submitted
to the work queue, so no worker can be spawned for it. -/
theorem disabled_trigger_no_content (triggers : TriggerMap)
    (triggerId : String) (record : EmulatedTriggerRecord)
    (hrec : mapGet triggers triggerId = some record)
    (hdis : record.enabled = false) :
    backgroundHandler triggers triggerId
      = { immediateStatus := some 204, submittedTasks := [] } := by
  simp [backgroundHandler, hrec, hdis]

/-- A disabled record over a definition named suspended, used by concrete
witnesses. -/
def suspendedDef : EmulatedTriggerDefinition :=
  { name := "suspended", entryPoint := "suspended", httpsTrigger := false,
    eventTrigger := some { resource := "projects/p/topics/t",
                           eventType := "google.pubsub.topic.publish",
                           service := "pubsub.googleapis.com" },
    schedule := false }

theorem disabled_trigger_no_content_witness :
    backgroundHandler [("suspended", { defn := suspendedDef, enabled := false })]
        "suspended"
      = { immediateStatus := some 204, submittedTasks := [] } :=
  disabled_trigger_no_content
    [("suspended", { defn := suspendedDef, enabled := false })]
    "suspended" { defn := suspendedDef, enabled := false }
    (by decide) (by decide)

/-- C9: looking up an absent trigger name fails with the NotFound error and
never returns a definition; looking up a present name returns that
record's definition. -/
theorem lookup_notfound_or_definition (m : TriggerMap) (name : String) :
    (mapGet m name = none →
      getTriggerDefinitionByName m name
        = Except.error ("No trigger with name " ++ name))
  ∧ (∀ r, mapGet m name = some r →
      getTriggerDefinitionByName m name = Except.ok r.defn) := by
  constructor
  · intro h
    simp [getTriggerDefinitionByName, h]
  · intro r h
    simp [getTriggerDefinitionByName, h]

theorem lookup_notfound_or_definition_witness :
    (getTriggerDefinitionByName [] "ghost"
        = Except.error ("No trigger with name " ++ "ghost"))
  ∧ (getTriggerDefinitionByName
        [("suspended", { defn := suspendedDef, enabled := true })] "suspended"
        = Except.ok suspendedDef) :=
  ⟨(lookup_notfound_or_definition [] "ghost").1 (by decide),
   (lookup_notfound_or_definition
      [("suspended", { defn := suspendedDef, enabled := true })]
      "suspended").2 { defn := suspendedDef, enabled := true } (by decide)⟩

/-- C7 (counterexample to the claim as stated): addTriggerRecord is not a
no-op on an existing name; it replaces the record and resets enabled to
true.  Registering a definition named suspended over an existing disabled
record loses both the old definition and the disabled flag. -/
theorem addTriggerRecord_overwrite_counterexample :
    mapGet (addTriggerRecord
        [("suspended", { defn := suspendedDef, enabled := false })]
        { suspendedDef with entryPoint := "other" }) "suspended"
      ≠ some { defn := suspendedDef, enabled := false }
  ∧ mapGet (addTriggerRecord
        [("suspended", { defn := suspendedDef, enabled := false })]
        { suspendedDef with entryPoint := "other" }) "suspended"
      = some { defn := { suspendedDef with entryPoint := "other" },
               enabled := true } := by
  constructor
  · decide
  · decide

/-- C7 (amended): addTriggerRecord binds the definition's name to a record
with that definition and enabled = true, whether or not the name was
already present — an existing record (definition and enabled flag alike)
is overwritten, not preserved; all other names keep their previous
binding. -/
theorem addTriggerRecord_binds (m : TriggerMap)
    (d : EmulatedTriggerDefinition) :
    mapGet (addTriggerRecord m d) d.name = some { defn := d, enabled := true }
  ∧ (∀ k, k ≠ d.name → mapGet (addTriggerRecord m d) k = mapGet m k) := by
  constructor
  · simp [addTriggerRecord, mapGet]
  · intro k hk
    have h2 : ¬(d.name = k) := fun h => hk h.symm
    simp [addTriggerRecord, mapGet, h2]

theorem addTriggerRecord_binds_witness :
    mapGet (addTriggerRecord [] suspendedDef) "suspended"
        = some { defn := suspendedDef, enabled := true }
  ∧ mapGet (addTriggerRecord [] suspendedDef) "other" = none :=
  ⟨(addTriggerRecord_binds [] suspendedDef).1,
   (addTriggerRecord_binds [] suspendedDef).2 "other" (by decide)⟩

/-- One synchronous action of the multicastHandler: submitting a deferred
invocation task to the work queue (nothing runs yet), or sending the HTTP
response body to the caller.  The handler performs these in order and never
waits on a submitted task. -/
inductive MulticastEvent where
  | submitTask (projectId : String) (triggerId : String)
  | respond (body : String)
deriving DecidableEq

/-- Is this multicast-handler action a task submission? -/
def isSubmitTask : MulticastEvent → Bool
  | MulticastEvent.submitTask _ _ => true
  | _ => false

/-- multicastHandler: resolve the subscriber list under the key
configProjectId:eventType (empty when the key is absent), submit one
work-queue task per subscriber, then immediately respond
multicast_acknowledged to the caller — the response does not await any
submitted task, which is why it appears in the same synchronous action
list after the submissions. -/
def multicastHandler (multicastTriggers : List (String × List String))
    (configProjectId urlProjectId eventType : String) :
    List MulticastEvent :=
  let triggers :=
    (mapGet multicastTriggers (configProjectId ++ ":" ++ eventType)).getD []
  triggers.map (fun triggerId =>
      MulticastEvent.submitTask urlProjectId triggerId)
    ++ [MulticastEvent.respond "multicast_acknowledged"]

/-- C8: when the (project, eventType) key resolves to N subscribers, the
handler submits exactly one independent task per subscriber (N in all) and
the acknowledgment response is the last synchronous action, sent without
awaiting any of the submitted tasks. -/
theorem multicast_fanout (multicastTriggers : List (String × List String))
    (configProjectId urlProjectId eventType : String) (subs : List String)
    (h : mapGet multicastTriggers (configProjectId ++ ":" ++ eventType)
          = some subs) :
    multicastHandler multicastTriggers configProjectId urlProjectId eventType
        = subs.map (fun triggerId =>
            MulticastEvent.submitTask urlProjectId triggerId)
          ++ [MulticastEvent.respond "multicast_acknowledged"]
  ∧ (multicastHandler multicastTriggers configProjectId urlProjectId
        eventType).countP isSubmitTask = subs.length
  ∧ (multicastHandler multicastTriggers configProjectId urlProjectId
        eventType).getLast?
      = some (MulticastEvent.respond "multicast_acknowledged") := by
  refine ⟨?_, ?_, ?_⟩
  · simp [multicastHandler, h]
  · simp [multicastHandler, h, List.countP_append, List.countP_map,
      isSubmitTask, List.countP_eq_length]
  · simp [multicastHandler, h]

theorem multicast_fanout_witness :
    multicastHandler [("p:google.firebase.auth.user.create", ["a", "b"])]
        "p" "p" "google.firebase.auth.user.create"
      = [MulticastEvent.submitTask "p" "a", MulticastEvent.submitTask "p" "b",
         MulticastEvent.respond "multicast_acknowledged"]
  ∧ (multicastHandler [("p:google.firebase.auth.user.create", ["a", "b"])]
        "p" "p" "google.firebase.auth.user.create").countP isSubmitTask = 2 :=
  ⟨(multicast_fanout [("p:google.firebase.auth.user.create", ["a", "b"])]
      "p" "p" "google.firebase.auth.user.create" ["a", "b"] (by decide)).1,
   (multicast_fanout [("p:google.firebase.auth.user.create", ["a", "b"])]
      "p" "p" "google.firebase.auth.user.create" ["a", "b"] (by decide)).2.1⟩

/-- Modelled from the spec: the service identifier constants of the
Constants module (outside this snapshot).  Only their distinctness matters
to the code under study. -/
def SERVICE_FIRESTORE : String := "firestore.googleapis.com"

/-- Modelled from the spec: the Realtime Database service identifier. -/
def SERVICE_REALTIME_DATABASE : String := "firebaseio.com"

/-- Modelled from the spec: the Pub/Sub service identifier. -/
def SERVICE_PUBSUB : String := "pubsub.googleapis.com"

/-- Modelled from the spec: the Auth service identifier. -/
def SERVICE_AUTH : String := "firebaseauth.googleapis.com"

/-- Modelled from the spec: getFunctionService from functionsEmulatorShared
(outside this snapshot) reads the service of the definition's event-source
metadata, or the sentinel unknown when there is none. -/
def getFunctionService (d : EmulatedTriggerDefinition) : String :=
  match d.eventTrigger with
  | some et => et.service
  | none => "unknown"

/-- Outcome of the cross-project check at the top of the promise in
handleBackgroundTrigger: reject with an HTTP code, or fall through to the
normal invocation path. -/
inductive BgCheck where
  | rejected (code : Nat)
  | accepted
deriving DecidableEq

/-- The cross-project guard of handleBackgroundTrigger: a request whose
projectId differs from the emulator's configured one is rejected with 404
unless the trigger's service is Realtime Database and the trigger's
eventTrigger resource starts with projects/_/instances/ followed by the
requested projectId.  (The eventTrigger-is-none arm under the database
service is unreachable: getFunctionService only yields the database service
from a present eventTrigger; it mirrors the source's non-null assertion.) -/
def handleBackgroundTriggerProjectCheck (configProjectId : String)
    (trigger : EmulatedTriggerDefinition) (projectId : String) : BgCheck :=
  if projectId ≠ configProjectId then
    if getFunctionService trigger ≠ SERVICE_REALTIME_DATABASE then
      BgCheck.rejected 404
    else
      match trigger.eventTrigger with
      | some et =>
        if !(et.resource.startsWith ("projects/_/instances/" ++ projectId)) then
          BgCheck.rejected 404
        else
          BgCheck.accepted
      | none => BgCheck.rejected 404
  else
    BgCheck.accepted

/-- C10: a background invocation is rejected by the project check with 404
exactly when its projectId differs from the configured one and the trigger
is not a Realtime Database trigger whose resource starts with
projects/_/instances/ followed by the requested projectId; in particular an
invocation for the configured projectId is never rejected by this check. -/
theorem background_project_check (configProjectId : String)
    (trigger : EmulatedTriggerDefinition) (projectId : String) :
    (handleBackgroundTriggerProjectCheck configProjectId trigger projectId
        = BgCheck.rejected 404
      ↔ (projectId ≠ configProjectId
          ∧ ¬(getFunctionService trigger = SERVICE_REALTIME_DATABASE
              ∧ ∃ et, trigger.eventTrigger = some et
                  ∧ et.resource.startsWith
                      ("projects/_/instances/" ++ projectId) = true)))
  ∧ (projectId = configProjectId →
      handleBackgroundTriggerProjectCheck configProjectId trigger projectId
        = BgCheck.accepted) := by
  constructor
  · by_cases hp : projectId = configProjectId
    · simp [handleBackgroundTriggerProjectCheck, hp]
    · by_cases hs : getFunctionService trigger = SERVICE_REALTIME_DATABASE
      · cases het : trigger.eventTrigger with
        | none =>
          exfalso
          rw [getFunctionService, het] at hs
          exact absurd hs (by decide)
        | some et =>
          by_cases hr : et.resource.startsWith
              ("projects/_/instances/" ++ projectId) = true
          · simp [handleBackgroundTriggerProjectCheck, hp, hs, het, hr]
          · simp [handleBackgroundTriggerProjectCheck, hp, hs, het, hr]
      · simp [handleBackgroundTriggerProjectCheck, hp, hs]
  · intro hp
    simp [handleBackgroundTriggerProjectCheck, hp]

theorem background_project_check_witness :
    handleBackgroundTriggerProjectCheck "proj" suspendedDef "proj"
      = BgCheck.accepted :=
  (background_project_check "proj" suspendedDef "proj").2 rfl

/-- Match a literal character sequence at the head of the input, returning
the remainder on success. -/
def matchLit : List Char → List Char → Option (List Char)
  | [], s => some s
  | _ :: _, [] => none
  | p :: ps, c :: cs => if p = c then matchLit ps cs else none

/-- Which characters the JavaScript regex dot matches (every character
except the four line terminators). -/
def jsDotMatches (c : Char) : Bool :=
  !(c = '\n' || c = '\r' || c = ' ' || c = ' ')

/-- DATABASE_PATH_PATTERN from the source, the anchored JavaScript regex
on projects slash one-or-more-non-slash slash instances slash a captured
group of one-or-more-non-slash slash refs and a captured group of a slash
followed by dot-star, evaluated as a deterministic parser (each character
class excludes the following literal slash, so no backtracking choice
exists).  Returns (capture group 1, capture group 2) on a match: the
instance name and the path including its leading slash. -/
def databasePathPattern (s : List Char) : Option (List Char × List Char) :=
  match matchLit "projects/".data s with
  | none => none
  | some r1 =>
    let seg1 := r1.takeWhile (fun c => !(c = '/'))
    let r2 := r1.dropWhile (fun c => !(c = '/'))
    if seg1.isEmpty then none
    else
      match matchLit "/instances/".data r2 with
      | none => none
      | some r3 =>
        let ns := r3.takeWhile (fun c => !(c = '/'))
        let r4 := r3.dropWhile (fun c => !(c = '/'))
        if ns.isEmpty then none
        else
          match matchLit "/refs".data r4 with
          | none => none
          | some r5 =>
            match r5 with
            | [] => none
            | c :: cs =>
              if c = '/' && cs.all jsDotMatches then some (ns, r5) else none

/-- The resolution of one awaited registration promise: resolved with the
added flag, or rejected (which, being awaited inside loadTriggers, throws
there). -/
inductive RegResult where
  | resolved (added : Bool)
  | rejected
deriving DecidableEq

/-- The warnings addRealtimeDatabaseTrigger can log. -/
inductive DbWarning where
  | undefinedEventTrigger
  | malformedResource
  | sentinelNamespace
  | registrationError
deriving DecidableEq

/-- The JSON body POSTed to the database emulator's functionTriggers
settings path. -/
structure DbTriggerBundle where
  name : String
  path : String
  event : String
  topic : String
deriving DecidableEq

/-- Everything observable about one addRealtimeDatabaseTrigger call: its
promise outcome, the warnings logged, and the POST issued (bundle and
settings path with its optional ns query), when one is issued. -/
structure DbRegResult where
  outcome : RegResult
  warnings : List DbWarning
  request : Option (DbTriggerBundle × String)
deriving DecidableEq

/-- The state of the collaborator emulators and their registration APIs
during one discovery run: which collaborators are running, and whether
each registration call succeeds (a false Ok field models the api call or
pubsub addTrigger failing). -/
structure CollabEnv where
  databaseRunning : Bool
  firestoreRunning : Bool
  pubsubRunning : Bool
  databaseApiOk : Bool
  firestoreApiOk : Bool
  pubsubAddOk : Bool
deriving DecidableEq

/-- addRealtimeDatabaseTrigger: resolve false when the database emulator is
absent; reject with a warning when the eventTrigger member is undefined or
the resource fails DATABASE_PATH_PATTERN; otherwise build the trigger
bundle from the captured groups, append the ns query for a nonempty
instance (warning about the sentinel namespace otherwise), POST it, and
resolve true on success or log and rethrow on api failure. -/
def addRealtimeDatabaseTrigger (env : CollabEnv) (projectId : String)
    (definition : EmulatedTriggerDefinition) : DbRegResult :=
  if !env.databaseRunning then
    { outcome := RegResult.resolved false, warnings := [], request := none }
  else
    match definition.eventTrigger with
    | none =>
      { outcome := RegResult.rejected,
        warnings := [DbWarning.undefinedEventTrigger], request := none }
    | some et =>
      match databasePathPattern et.resource.data with
      | none =>
        { outcome := RegResult.rejected,
          warnings := [DbWarning.malformedResource], request := none }
      | some (inst, p) =>
        let bundle : DbTriggerBundle :=
          { name := "projects/" ++ projectId ++ "/locations/_/functions/"
              ++ definition.name,
            path := String.mk p,
            event := et.eventType,
            topic := "projects/" ++ projectId ++ "/topics/"
              ++ definition.name }
        let instStr := String.mk inst
        let setTriggersPath :=
          if instStr ≠ "" then
            "/.settings/functionTriggers.json?ns=" ++ instStr
          else
            "/.settings/functionTriggers.json"
        let warns :=
          if instStr = "" then [DbWarning.sentinelNamespace] else []
        if env.databaseApiOk then
          { outcome := RegResult.resolved true, warnings := warns,
            request := some (bundle, setTriggersPath) }
        else
          { outcome := RegResult.rejected,
            warnings := warns ++ [DbWarning.registrationError],
            request := some (bundle, setTriggersPath) }

/-- The environment in which every collaborator runs and every
registration call succeeds. -/
def dbEnv : CollabEnv :=
  { databaseRunning := true, firestoreRunning := true, pubsubRunning := true,
    databaseApiOk := true, firestoreApiOk := true, pubsubAddOk := true }

/-- The environment in which the database emulator runs but its
registration POST fails. -/
def dbApiFailEnv : CollabEnv :=
  { databaseRunning := true, firestoreRunning := true, pubsubRunning := true,
    databaseApiOk := false, firestoreApiOk := true, pubsubAddOk := true }

/-- A well-formed Realtime Database trigger definition over namespace myns
and path /foo/bar. -/
def dbGoodDef : EmulatedTriggerDefinition :=
  { name := "dbfn", entryPoint := "dbfn", httpsTrigger := false,
    eventTrigger := some
      { resource := "projects/_/instances/myns/refs/foo/bar",
        eventType := "ref.write",
        service := SERVICE_REALTIME_DATABASE },
    schedule := false }

/-- A Realtime Database trigger definition whose resource has an empty
instance segment. -/
def dbEmptyNsDef : EmulatedTriggerDefinition :=
  { name := "dbempty", entryPoint := "dbempty", httpsTrigger := false,
    eventTrigger := some
      { resource := "projects/_/instances//refs/x",
        eventType := "ref.write",
        service := SERVICE_REALTIME_DATABASE },
    schedule := false }

/-- C5 (counterexample to the claim as stated): the resource with an empty
namespace does not register successfully with a sentinel-namespace
warning; DATABASE_PATH_PATTERN requires a nonempty instance segment, so
the registration is rejected as malformed and the sentinel-namespace
warning is never logged. -/
theorem database_empty_namespace_counterexample :
    (addRealtimeDatabaseTrigger dbEnv "proj" dbEmptyNsDef).outcome
        = RegResult.rejected
  ∧ DbWarning.sentinelNamespace
      ∉ (addRealtimeDatabaseTrigger dbEnv "proj" dbEmptyNsDef).warnings := by
  decide

/-- C5 (amended): the resource projects/_/instances/myns/refs/foo/bar
yields namespace myns and path /foo/bar and registers successfully with
the ns query, while the empty-namespace resource
projects/_/instances//refs/x fails the pattern, so its registration is
rejected with a malformed-resource warning (the sentinel-namespace branch
is unreachable through this pattern). -/
theorem database_resource_pattern :
    databasePathPattern "projects/_/instances/myns/refs/foo/bar".data
        = some ("myns".data, "/foo/bar".data)
  ∧ addRealtimeDatabaseTrigger dbEnv "proj" dbGoodDef
        = { outcome := RegResult.resolved true, warnings := [],
            request := some
              ({ name := "projects/proj/locations/_/functions/dbfn",
                 path := "/foo/bar",
                 event := "ref.write",
                 topic := "projects/proj/topics/dbfn" },
               "/.settings/functionTriggers.json?ns=myns") }
  ∧ databasePathPattern "projects/_/instances//refs/x".data = none
  ∧ addRealtimeDatabaseTrigger dbEnv "proj" dbEmptyNsDef
        = { outcome := RegResult.rejected,
            warnings := [DbWarning.malformedResource], request := none } := by
  decide

/-- addFirestoreTrigger: resolve false when the Firestore emulator is
absent; otherwise PUT the trigger descriptor and resolve true on success
or log a warning and rethrow on api failure. -/
def addFirestoreTrigger (env : CollabEnv) (projectId : String)
    (definition : EmulatedTriggerDefinition) : RegResult :=
  if !env.firestoreRunning then RegResult.resolved false
  else if env.firestoreApiOk then RegResult.resolved true
  else RegResult.rejected

/-- addPubsubTrigger: resolve false when the Pub/Sub emulator is absent or
the definition has no eventTrigger; otherwise derive the topic (the
schedule-prefix convention, or the last path segment of the resource) and
call addTrigger, resolving false instead of rethrowing when that call
fails — this registration never rejects. -/
def addPubsubTrigger (env : CollabEnv) (projectId : String)
    (definition : EmulatedTriggerDefinition) : RegResult :=
  if !env.pubsubRunning then RegResult.resolved false
  else
    match definition.eventTrigger with
    | none => RegResult.resolved false
    | some et =>
      let _topic :=
        if definition.schedule then "firebase-schedule-" ++ definition.name
        else (et.resource.splitOn "/").getLastD ""
      if env.pubsubAddOk then RegResult.resolved true
      else RegResult.resolved false

/-- addAuthTrigger: append the definition's entry point to the multicast
subscriber list under projectId:eventType and return true — this
registration is synchronous and never fails. -/
def addAuthTrigger (projectId : String)
    (definition : EmulatedTriggerDefinition)
    (multicastTriggers : List (String × List String)) :
    List (String × List String) :=
  let eventTriggerId := projectId ++ ":" ++
    (match definition.eventTrigger with
      | some et => et.eventType
      | none => "undefined")
  let triggers := (mapGet multicastTriggers eventTriggerId).getD []
  (eventTriggerId, triggers ++ [definition.entryPoint]) :: multicastTriggers

/-- The per-definition body of the loadTriggers loop, up to the awaited
registration outcome: HTTPS triggers only compute their URL (no
registration, never rejects); event triggers dispatch on the service to
the matching collaborator registration (addAuthTrigger always succeeding,
an unsupported service logging and leaving added false). -/
def registerDefinition (env : CollabEnv) (projectId : String)
    (definition : EmulatedTriggerDefinition) : RegResult :=
  if definition.httpsTrigger then RegResult.resolved true
  else
    let service := getFunctionService definition
    if service = SERVICE_FIRESTORE then
      addFirestoreTrigger env projectId definition
    else if service = SERVICE_REALTIME_DATABASE then
      (addRealtimeDatabaseTrigger env projectId definition).outcome
    else if service = SERVICE_PUBSUB then
      addPubsubTrigger env projectId definition
    else if service = SERVICE_AUTH then
      RegResult.resolved true
    else
      RegResult.resolved false

/-- The for-loop of loadTriggers over the definitions selected for setup:
each iteration awaits the registration and then records the trigger; an
awaited rejection throws out of the loop, so the returned flag is false
and the remaining definitions are not processed, while the registry keeps
the mutations already made (this.triggers persists across the throw). -/
def loadTriggersGo (env : CollabEnv) (projectId : String) :
    TriggerMap → List EmulatedTriggerDefinition → TriggerMap × Bool
  | m, [] => (m, true)
  | m, definition :: rest =>
    match registerDefinition env projectId definition with
    | RegResult.rejected => (m, false)
    | RegResult.resolved _ =>
      loadTriggersGo env projectId (addTriggerRecord m definition) rest

/-- The registry effect of loadTriggers: filter the discovered definitions
down to toSetup, the ones whose names are not yet registered (computed
once, against the registry at the start of the run), then run the
registration loop over them.  The Bool is true when the run completed
without a registration rejection. -/
def loadTriggers (env : CollabEnv) (projectId : String) (m : TriggerMap)
    (triggerDefinitions : List EmulatedTriggerDefinition) :
    TriggerMap × Bool :=
  loadTriggersGo env projectId m
    (triggerDefinitions.filter
      (fun definition => (mapGet m definition.name).isNone))

theorem mapGet_addTriggerRecord_same (m : TriggerMap)
    (d : EmulatedTriggerDefinition) :
    mapGet (addTriggerRecord m d) d.name
      = some { defn := d, enabled := true } := by
  simp [addTriggerRecord, mapGet]

theorem mapGet_addTriggerRecord_other (m : TriggerMap)
    (d : EmulatedTriggerDefinition) (k : String) (h : k ≠ d.name) :
    mapGet (addTriggerRecord m d) k = mapGet m k := by
  have h2 : ¬(d.name = k) := fun e => h e.symm
  simp [addTriggerRecord, mapGet, h2]

theorem loadTriggersGo_not_mentioned (env : CollabEnv) (pid : String)
    (defs : List EmulatedTriggerDefinition) :
    ∀ (m : TriggerMap) (name : String), (∀ d ∈ defs, d.name ≠ name) →
      mapGet (loadTriggersGo env pid m defs).1 name = mapGet m name := by
  induction defs with
  | nil => intro m name _; rfl
  | cons e rest ih =>
    intro m name h
    have he : e.name ≠ name := h e (List.mem_cons_self e rest)
    have hr : ∀ d ∈ rest, d.name ≠ name :=
      fun d hd => h d (List.mem_cons_of_mem e hd)
    cases hreg : registerDefinition env pid e with
    | rejected => simp [loadTriggersGo, hreg]
    | resolved b =>
      simp only [loadTriggersGo, hreg]
      rw [ih (addTriggerRecord m e) name hr,
        mapGet_addTriggerRecord_other m e name (fun x => he x.symm)]

/-- The name is bound to an enabled record over a definition carrying
exactly that name. -/
def boundEnabled (m : TriggerMap) (name : String) : Prop :=
  ∃ d, d.name = name
    ∧ mapGet m name = some { defn := d, enabled := true }

theorem loadTriggersGo_preserves_boundEnabled (env : CollabEnv)
    (pid : String) (defs : List EmulatedTriggerDefinition) :
    ∀ (m : TriggerMap) (name : String), boundEnabled m name →
      boundEnabled (loadTriggersGo env pid m defs).1 name := by
  induction defs with
  | nil => intro m name h; exact h
  | cons e rest ih =>
    intro m name h
    cases hreg : registerDefinition env pid e with
    | rejected => simpa [loadTriggersGo, hreg] using h
    | resolved b =>
      simp only [loadTriggersGo, hreg]
      apply ih
      by_cases hn : name = e.name
      · exact ⟨e, hn.symm, by rw [hn]; exact mapGet_addTriggerRecord_same m e⟩
      · obtain ⟨d2, hd2, hm⟩ := h
        exact ⟨d2, hd2, by rw [mapGet_addTriggerRecord_other m e name hn, hm]⟩

theorem loadTriggersGo_registers (env : CollabEnv) (pid : String)
    (defs : List EmulatedTriggerDefinition) :
    ∀ (m : TriggerMap), (loadTriggersGo env pid m defs).2 = true →
      ∀ d ∈ defs, boundEnabled (loadTriggersGo env pid m defs).1 d.name := by
  induction defs with
  | nil =>
    intro m _ d hd
    exact absurd hd (List.not_mem_nil d)
  | cons e rest ih =>
    intro m hc d hd
    cases hreg : registerDefinition env pid e with
    | rejected => simp [loadTriggersGo, hreg] at hc
    | resolved b =>
      simp only [loadTriggersGo, hreg] at hc ⊢
      rcases List.mem_cons.mp hd with h | h
      · subst h
        apply loadTriggersGo_preserves_boundEnabled
        exact ⟨d, rfl, mapGet_addTriggerRecord_same m d⟩
      · exact ih (addTriggerRecord m e) hc d h

theorem loadTriggersGo_all_ok (env : CollabEnv) (pid : String)
    (defs : List EmulatedTriggerDefinition) :
    ∀ (m : TriggerMap),
      (∀ d ∈ defs, registerDefinition env pid d ≠ RegResult.rejected) →
      (loadTriggersGo env pid m defs).2 = true := by
  induction defs with
  | nil => intro m _; rfl
  | cons e rest ih =>
    intro m h
    cases hreg : registerDefinition env pid e with
    | rejected => exact absurd hreg (h e (List.mem_cons_self e rest))
    | resolved b =>
      simp only [loadTriggersGo, hreg]
      exact ih (addTriggerRecord m e)
        (fun d hd => h d (List.mem_cons_of_mem e hd))

/-- C4 (amended): a registration that settles without rejecting — in
particular one whose collaborator emulator is absent, which resolves with
added false — never aborts the loop, and every such definition's name ends
up in the registry; but an awaited registration rejection (a database or
Firestore api failure, or a malformed or missing database eventTrigger)
aborts the run at that definition: the registry is left as it was and the
remaining definitions are not processed. -/
theorem loadTriggers_registration_propagation (env : CollabEnv)
    (pid : String) (m : TriggerMap)
    (defs : List EmulatedTriggerDefinition) :
    ((∀ d ∈ defs, registerDefinition env pid d ≠ RegResult.rejected) →
      (loadTriggersGo env pid m defs).2 = true
      ∧ ∀ d ∈ defs,
          (mapGet (loadTriggersGo env pid m defs).1 d.name).isSome = true)
  ∧ (∀ d rest, registerDefinition env pid d = RegResult.rejected →
      loadTriggersGo env pid m (d :: rest) = (m, false)) := by
  constructor
  · intro h
    have hc := loadTriggersGo_all_ok env pid defs m h
    refine ⟨hc, ?_⟩
    intro d hd
    obtain ⟨d2, _, hm⟩ := loadTriggersGo_registers env pid defs m hc d hd
    simp [hm]
  · intro d rest hreg
    simp [loadTriggersGo, hreg]

/-- An auth trigger definition used by the concrete runs. -/
def authDef : EmulatedTriggerDefinition :=
  { name := "authfn", entryPoint := "authfn", httpsTrigger := false,
    eventTrigger := some
      { resource := "", eventType := "user.create", service := SERVICE_AUTH },
    schedule := false }

/-- The environment in which the database emulator is not running (its
registration degrades to resolved false) and everything else succeeds. -/
def collabAbsentEnv : CollabEnv :=
  { databaseRunning := false, firestoreRunning := true,
    pubsubRunning := true, databaseApiOk := true, firestoreApiOk := true,
    pubsubAddOk := true }

theorem loadTriggers_registration_propagation_witness :
    ((loadTriggersGo collabAbsentEnv "proj" [] [dbGoodDef, authDef]).2 = true
      ∧ ∀ d ∈ [dbGoodDef, authDef],
          (mapGet (loadTriggersGo collabAbsentEnv "proj" []
              [dbGoodDef, authDef]).1 d.name).isSome = true)
  ∧ loadTriggersGo dbApiFailEnv "proj" [] [dbGoodDef, authDef]
      = ([], false) :=
  ⟨(loadTriggers_registration_propagation collabAbsentEnv "proj" []
      [dbGoodDef, authDef]).1 (by decide),
   (loadTriggers_registration_propagation dbApiFailEnv "proj" [] []).2
      dbGoodDef [authDef] (by decide)⟩

/-- C4 (counterexample to the claim as stated): with the database emulator
running but its registration POST failing, the awaited rejection from
registering the first trigger aborts the whole run — the second discovered
definition is never processed and neither name is added to the registry. -/
theorem loadTriggers_abort_counterexample :
    loadTriggers dbApiFailEnv "proj" [] [dbGoodDef, authDef] = ([], false)
  ∧ mapGet (loadTriggers dbApiFailEnv "proj" [] [dbGoodDef, authDef]).1
      authDef.name = none
  ∧ mapGet (loadTriggers dbApiFailEnv "proj" [] [dbGoodDef, authDef]).1
      dbGoodDef.name = none := by
  decide

/-- A registered HTTPS definition named old, used by the discovery
witnesses. -/
def oldDef : EmulatedTriggerDefinition :=
  { name := "old", entryPoint := "old", httpsTrigger := true,
    eventTrigger := none, schedule := false }

/-- A newly discovered HTTPS definition named new. -/
def newDef : EmulatedTriggerDefinition :=
  { name := "new", entryPoint := "new", httpsTrigger := true,
    eventTrigger := none, schedule := false }

/-- C6 (counterexample to the claim as stated): in a discovery run over a
fresh registry where the first definition's database registration
rejects, the other newly discovered name receives no record at all, so it
is not the case that every new name gains exactly one enabled record. -/
theorem discovery_abort_counterexample :
    (loadTriggers dbApiFailEnv "proj" [] [dbGoodDef, newDef]).2 = false
  ∧ mapGet ([] : TriggerMap) newDef.name = none
  ∧ newDef.name ∈ [dbGoodDef, newDef].map (fun d => d.name)
  ∧ mapGet (loadTriggers dbApiFailEnv "proj" [] [dbGoodDef, newDef]).1
      newDef.name = none := by
  decide

/-- C6 (amended): discovery processes only definitions whose names are
absent from the registry when the run starts — every name present before
the run keeps its exact record (definition and enabled flag), even if the
run aborts; and provided the run completes without a registration
rejection, every newly discovered name is bound to a record with
enabled = true over a definition of that name. -/
theorem discovery_idempotent (env : CollabEnv) (pid : String)
    (m : TriggerMap) (defs : List EmulatedTriggerDefinition)
    (name : String) :
    (∀ r, mapGet m name = some r →
        mapGet (loadTriggers env pid m defs).1 name = some r)
  ∧ ((loadTriggers env pid m defs).2 = true →
      mapGet m name = none →
      name ∈ defs.map (fun d => d.name) →
      ∃ d, d.name = name
        ∧ mapGet (loadTriggers env pid m defs).1 name
            = some { defn := d, enabled := true }) := by
  constructor
  · intro r hr
    have hfilter :
        ∀ d ∈ defs.filter (fun x => (mapGet m x.name).isNone),
          d.name ≠ name := by
      intro d hd he
      have hiso := (List.mem_filter.mp hd).2
      rw [he, hr] at hiso
      simp at hiso
    show mapGet (loadTriggersGo env pid m
        (defs.filter (fun x => (mapGet m x.name).isNone))).1 name = some r
    rw [loadTriggersGo_not_mentioned env pid _ m name hfilter]
    exact hr
  · intro hc hnone hmem
    obtain ⟨d, hd, hdn⟩ := List.mem_map.mp hmem
    have hdf : d ∈ defs.filter (fun x => (mapGet m x.name).isNone) := by
      refine List.mem_filter.mpr ⟨hd, ?_⟩
      rw [hdn, hnone]
      rfl
    have hb := loadTriggersGo_registers env pid
      (defs.filter (fun x => (mapGet m x.name).isNone)) m hc d hdf
    rw [hdn] at hb
    exact hb

theorem discovery_idempotent_witness :
    mapGet (loadTriggers dbEnv "proj"
        [("old", { defn := oldDef, enabled := false })] [oldDef, newDef]).1
        "old"
      = some { defn := oldDef, enabled := false }
  ∧ ∃ d, d.name = "new"
      ∧ mapGet (loadTriggers dbEnv "proj"
          [("old", { defn := oldDef, enabled := false })]
          [oldDef, newDef]).1 "new"
        = some { defn := d, enabled := true } :=
  ⟨(discovery_idempotent dbEnv "proj"
      [("old", { defn := oldDef, enabled := false })] [oldDef, newDef]
      "old").1 { defn := oldDef, enabled := false } (by decide),
   (discovery_idempotent dbEnv "proj"
      [("old", { defn := oldDef, enabled := false })] [oldDef, newDef]
      "new").2 (by decide) (by decide) (by decide)⟩
